import Mathlib

/-!
Shallow embedding of the client-side pipeline of the `secrets` encrypted
blog: key capture from the URL fragment (www/load.js, assets/src/index.js),
AES-GCM wrapper and resource fetching (www/decrypt.js,
assets/static/decrypt.js), the viewport lazy loader for images
(assets/static/decrypt.js), and the encrypted map-tile layer
(assets/src/map.js).  Platform primitives (the AEAD cipher, HMAC, the
network) are parameters of the model; everything the repository's own code
does is translated directly.
-/

namespace Secrets

/-! Definitions: the shallow embedding of the source. -/

/-- Bytes are modelled as natural numbers (values below 256 where relevant). -/
abbrev Byte := Nat

/-- Decimal string of a JS number holding an integer, as produced by JS
template-literal conversion. -/
def jsNumToString (i : Int) : String := Int.repr i

/-- JS `String.prototype.replace` with a global single-character pattern:
replaces every occurrence of character `a` by character `b`. -/
def jsReplaceAllChar (a b : Char) (s : String) : String :=
  ⟨s.data.map (fun c => if c = a then b else c)⟩

/-- JS `String.prototype.toLowerCase` on the ASCII strings this code
handles: per-character lower-casing. -/
def jsToLowerCase (s : String) : String := ⟨s.data.map Char.toLower⟩

/-- JS `str.substr(1)`: drop the first character. -/
def jsSubstrFrom1 (s : String) : String := ⟨s.data.drop 1⟩

/-- Characters removed by the forgiving-base64 decoder before decoding
(HTML ASCII whitespace). -/
def isB64Whitespace (c : Char) : Bool :=
  c.toNat == 9 || c.toNat == 10 || c.toNat == 12 || c.toNat == 13 || c.toNat == 32

/-- Value of a character in the standard base64 alphabet; `none` for a
character outside it. -/
def base64Index (c : Char) : Option Nat :=
  if 'A' ≤ c ∧ c ≤ 'Z' then some (c.toNat - 65)
  else if 'a' ≤ c ∧ c ≤ 'z' then some (c.toNat - 97 + 26)
  else if '0' ≤ c ∧ c ≤ '9' then some (c.toNat - 48 + 52)
  else if c = '+' then some 62
  else if c = '/' then some 63
  else none

/-- Strip one or two trailing padding characters when the input length is
a multiple of four, as the forgiving-base64 decoder does. -/
def stripBase64Padding (cs : List Char) : List Char :=
  if cs.length % 4 = 0 then
    if cs.reverse.take 2 = ['=', '='] then (cs.reverse.drop 2).reverse
    else if cs.reverse.take 1 = ['='] then (cs.reverse.drop 1).reverse
    else cs
  else cs

/-- Big-endian bits of `v` in a field of width `w`. -/
def natToBits (w v : Nat) : List Bool :=
  (List.range w).map (fun i => v / 2 ^ (w - 1 - i) % 2 == 1)

/-- Reassemble bits into bytes, discarding an incomplete trailing byte,
as the forgiving-base64 decoder does. -/
def bitsToBytes : List Bool → List Byte
  | b0 :: b1 :: b2 :: b3 :: b4 :: b5 :: b6 :: b7 :: rest =>
    (128 * cond b0 1 0 + 64 * cond b1 1 0 + 32 * cond b2 1 0 + 16 * cond b3 1 0 +
      8 * cond b4 1 0 + 4 * cond b5 1 0 + 2 * cond b6 1 0 + cond b7 1 0) :: bitsToBytes rest
  | _ => []

/-- Map every character to its base64 value; fail if any character is
outside the alphabet. -/
def decodeSextets : List Char → Option (List Nat)
  | [] => some []
  | c :: cs =>
    match base64Index c, decodeSextets cs with
    | some k, some ks => some (k :: ks)
    | _, _ => none

/-- Decode a whitespace-free, padding-free base64 character list: reject a
length congruent to 1 mod 4 or a character outside the alphabet, else
reassemble the sextets into bytes. -/
def atobChars (cs : List Char) : Option (List Byte) :=
  if cs.length % 4 = 1 then none
  else
    match decodeSextets cs with
    | none => none
    | some ks => some (bitsToBytes (ks.flatMap (natToBits 6)))

/-- JS `atob`, the forgiving-base64 decoder.  Returns `none` where the
browser implementation throws `InvalidCharacterError`. -/
def atob (s : String) : Option (List Byte) :=
  atobChars (stripBase64Padding (s.data.filter (fun c => ! isB64Whitespace c)))

/-- Deployment variants of the key-capture script: the plain `www` build
(load.js) and the webpack `assets` build (index.js). -/
inductive Variant
  | www
  | assets
deriving DecidableEq, Repr

/-- Key length each deployment expects, in bytes. -/
def expectedKeyLength : Variant → Nat
  | .www => 16
  | .assets => 32

/-- Alphabet normalisation applied before decoding: the assets build maps
the URL-safe base64 alphabet onto the standard one (first `-` to `+`,
then `_` to `/`); the www build applies none. -/
def normalizeKey : Variant → String → String
  | .www, s => s
  | .assets, s => jsReplaceAllChar '_' '/' (jsReplaceAllChar '-' '+' s)

/-- Validation of the candidate key from the fragment (`isValidKey` in
load.js and index.js): it must decode as base64 to exactly the expected
number of bytes; a decoding error yields `false`. -/
def isValidKey (v : Variant) (key : String) : Bool :=
  match atob (normalizeKey v key) with
  | some bytes => bytes.length == expectedKeyLength v
  | none => false

/-- Session storage entries the scripts touch. -/
structure SessionStorage where
  key : Option String
  dir : Option String
deriving DecidableEq, Repr

/-- Relevant parts of the page location. -/
structure PageLocation where
  hash : String
  pathname : String
deriving DecidableEq, Repr

/-- Key-capture step run at page load: reads the fragment after `#`,
validates it, and on success stores the fragment string as the session
key.  Returns the updated session storage and whether capture succeeded. -/
def captureKeyFromLocation (v : Variant) (loc : PageLocation) (st : SessionStorage) :
    SessionStorage × Bool :=
  if jsSubstrFrom1 loc.hash ≠ "" ∧ isValidKey v (jsSubstrFrom1 loc.hash) then
    ({ st with key := some (jsSubstrFrom1 loc.hash) }, true)
  else (st, false)

/-- JS `String.prototype.split` with a single-character separator, on the
character list of the string. -/
def jsSplitChar (sep : Char) : List Char → List (List Char)
  | [] => [[]]
  | c :: rest =>
    let r := jsSplitChar sep rest
    if c = sep then [] :: r
    else
      match r with
      | g :: gs => (c :: g) :: gs
      | [] => [[c]]

/-- Last truthy (non-empty) component of a path (`getLastPathComponent`
in load.js): split on `/`, reverse, first non-empty. -/
def getLastPathComponent (path : String) : Option String :=
  ((jsSplitChar '/' path.data).reverse.find? (fun l => ! l.isEmpty)).map
    (fun l => (⟨l⟩ : String))

/-- String JS stores for `sessionStorage.setItem('dir', x)` where `x` is
the result of `getLastPathComponent`: `undefined` is coerced to the
string `"undefined"`. -/
def dirValue (path : String) : String :=
  match getLastPathComponent path with
  | some c => c
  | none => "undefined"

/-- Top-level session-storage effect of www/load.js: key capture followed
by the unconditional write of the last path component under `dir`. -/
def wwwPageLoad (loc : PageLocation) (st : SessionStorage) : SessionStorage :=
  let st1 := (captureKeyFromLocation .www loc st).1
  { st1 with dir := some (dirValue loc.pathname) }

/-- Type of an AEAD opening primitive: key, nonce and ciphertext-with-tag
to optional plaintext.  AES-GCM with its 128-bit tag is one such
primitive; the repository calls it through `crypto.subtle`, so the model
quantifies over it. -/
abbrev AeadOpen := List Byte → List Byte → List Byte → Option (List Byte)

/-- An AEAD with a 16-byte authentication tag can never open a
ciphertext-with-tag shorter than 16 bytes. -/
def RespectsTagLength (aead : AeadOpen) : Prop :=
  ∀ k iv ct, ct.length < 16 → aead k iv ct = none

/-- Decrypt wrapper shared by www/decrypt.js and the Decryptor class: the
first 12 bytes of the input buffer are passed as the nonce (`iv`), the
remainder as the ciphertext-with-tag. -/
def decrypt (aead : AeadOpen) (key data : List Byte) : Option (List Byte) :=
  aead key (data.take 12) (data.drop 12)

/-- Modelled from the spec: stand-in tag function for an AEAD with a
16-byte tag, used only to instantiate theorems that quantify over the
platform cipher. -/
def specTag (key iv body : List Byte) : List Byte :=
  (List.range 16).map (fun i => (key.sum + 3 * iv.sum + 7 * body.sum + i) % 256)

/-- Modelled from the spec: toy authenticated cipher with the interface
and tag-length behaviour of AES-GCM, standing in for the platform
primitive, which is outside this repository.  It opens a
ciphertext-with-tag only when the trailing 16 bytes equal the tag of the
leading body. -/
def specAEAD : AeadOpen := fun key iv ct =>
  if ct.length < 16 then none
  else if ct.drop (ct.length - 16) = specTag key iv (ct.take (ct.length - 16)) then
    some (ct.take (ct.length - 16))
  else none

/-- HTTP response as the Fetch API delivers it to this code: a status,
body bytes, and the declared content type. -/
structure HttpResponse where
  status : Nat
  body : List Byte
  contentType : Option String
deriving DecidableEq, Repr

/-- A network: what `fetch` resolves to per locator; `none` models a
rejected fetch (unreachable host). -/
abbrev Network := String → Option HttpResponse

/-- Error kinds a fetch-and-decrypt can surface. -/
inductive FetchError
  | networkError
  | decryptionError
deriving DecidableEq, Repr

/-- Embedding of `fetchData` and `fetchEncryptedData`: plain retrieval of
the body bytes and declared type.  The HTTP status of a delivered
response is never inspected. -/
def fetchData (net : Network) (url : String) :
    Except FetchError (List Byte × Option String) :=
  match net url with
  | none => .error .networkError
  | some r => .ok (r.body, r.contentType)

/-- Composition of retrieval and the AEAD codec, as in `Decryptor.fetch`
and the fetch-then-decrypt call sites: no result is produced on either
kind of failure. -/
def fetchAndDecrypt (net : Network) (aead : AeadOpen) (key : List Byte) (url : String) :
    Except FetchError (List Byte) :=
  match fetchData net url with
  | .error e => .error e
  | .ok (data, _) =>
    match decrypt aead key data with
    | some pt => .ok pt
    | none => .error .decryptionError

/-- Statement of claim C7 as written: besides an unreachable host, a
delivered response with a non-success HTTP status is surfaced as the
network-failure error kind, distinct from a decryption failure. -/
def fetcherStatusClaim : Prop :=
  ∀ (net : Network) (aead : AeadOpen) (key : List Byte) (url : String) (r : HttpResponse),
    net url = some r → ¬(200 ≤ r.status ∧ r.status < 300) →
    fetchAndDecrypt net aead key url = .error .networkError

/-- Modelled from the spec: a host that answers every locator with a 404
status and a short body. -/
def net404 : Network := fun _ => some { status := 404, body := [0, 1, 2], contentType := none }

/-- Observable page effects of the DOMContentLoaded handler: content
appended to the body, console output, and whether the unlocked class was
added. -/
structure PageEffect where
  domInserts : List (List Byte)
  consoleLogs : List String
  unlockedClass : Bool
deriving DecidableEq, Repr

/-- Message a browser console shows for the rejection reason of each
failure kind: a fetch TypeError or a WebCrypto OperationError. -/
def errorMessage : FetchError → String
  | .networkError => "TypeError: Failed to fetch"
  | .decryptionError => "OperationError"

/-- DOMContentLoaded handler of each variant applied to the outcome of
`decryptContent`: on success both variants append the article (assets
also adds the unlocked class); on failure the assets build swallows the
error with an empty catch, while the www build logs the rejection reason
to the console. -/
def handleContentLoad : Variant → Except FetchError (List Byte) → PageEffect
  | .assets, .ok content => { domInserts := [content], consoleLogs := [], unlockedClass := true }
  | .www, .ok content => { domInserts := [content], consoleLogs := [], unlockedClass := false }
  | .assets, .error _ => { domInserts := [], consoleLogs := [], unlockedClass := false }
  | .www, .error e =>
    { domInserts := [], consoleLogs := [errorMessage e], unlockedClass := false }

/-- Full root-document load pipeline for the fixed locator `content`. -/
def loadRootContent (v : Variant) (net : Network) (aead : AeadOpen) (key : List Byte) :
    PageEffect :=
  handleContentLoad v (fetchAndDecrypt net aead key "content")

/-- Statement of claim C8 as written: when the root fetch or decryption
fails, nothing is inserted into the page and no error detail reaches the
DOM or the console, in either variant. -/
def failClosedClaim : Prop :=
  ∀ (v : Variant) (net : Network) (aead : AeadOpen) (key : List Byte),
    (∀ pt, fetchAndDecrypt net aead key "content" ≠ .ok pt) →
    (loadRootContent v net aead key).domInserts = [] ∧
    (loadRootContent v net aead key).consoleLogs = []

/-- An observed image element: its identity, its pending-declaration
marker (`data-src`) and its content source (`src`). -/
structure ImageElt where
  id : Nat
  dataSrc : Option String
  src : Option String
deriving DecidableEq, Repr

/-- State of the loader: the observed elements and the log of network
fetch locators issued so far. -/
structure LoaderState where
  images : List ImageElt
  fetches : List String
deriving DecidableEq, Repr

/-- An IntersectionObserver entry: the observed element and whether it
intersects the margin-extended viewport. -/
structure Entry where
  target : Nat
  isIntersecting : Bool
deriving DecidableEq, Repr

/-- Synchronous part of one loop iteration of the observer callback in
`decryptImages`: when the entry intersects and the element still carries
its `data-src` marker, `decryptImage` starts a fetch for that locator.
The marker itself is not touched here — the source removes it only inside
the promise continuation that runs after fetch and decryption complete. -/
def observerStep (st : LoaderState) (e : Entry) : LoaderState :=
  match st.images.find? (fun img => img.id == e.target) with
  | none => st
  | some img =>
    if e.isIntersecting then
      match img.dataSrc with
      | some u => { st with fetches := st.fetches ++ [u] }
      | none => st
    else st

/-- One observer callback invocation over a batch of entries. -/
def observerBatch (st : LoaderState) (batch : List Entry) : LoaderState :=
  batch.foldl observerStep st

/-- Effect of the `decryptImage` continuation on one element: an element
whose marker names the completed locator loses the marker and receives
the object URL as its source. -/
def fillImage (u obj : String) (img : ImageElt) : ImageElt :=
  if img.dataSrc = some u then { img with dataSrc := none, src := some obj } else img

/-- Promise continuation of `decryptImage` after locator `u` was fetched
and decrypted to object URL `obj`: it is applied to every element whose
`data-src` equals `u`. -/
def completeFetch (st : LoaderState) (u obj : String) : LoaderState :=
  { st with images := st.images.map (fillImage u obj) }

/-- Sequential image pass of www/decrypt.js `decryptImages`: walk the
elements in order with a decrypted-locator cache.  The marker is removed
before the branch; a cache hit reuses the cached object URL, a cache miss
fetches and decrypts the locator (modelled by `mkObject`) and caches the
result.  Returns the updated elements, the final cache, and the fetch
log. -/
def wwwDecryptImages (mkObject : String → String) :
    List ImageElt → List (String × String) →
      List ImageElt × List (String × String) × List String
  | [], cache => ([], cache, [])
  | img :: rest, cache =>
    match img.dataSrc with
    | none =>
      (img :: (wwwDecryptImages mkObject rest cache).1,
        (wwwDecryptImages mkObject rest cache).2.1,
        (wwwDecryptImages mkObject rest cache).2.2)
    | some u =>
      match cache.lookup u with
      | some obj =>
        ({ img with dataSrc := none, src := some obj } ::
            (wwwDecryptImages mkObject rest cache).1,
          (wwwDecryptImages mkObject rest cache).2.1,
          (wwwDecryptImages mkObject rest cache).2.2)
      | none =>
        ({ img with dataSrc := none, src := some (mkObject u) } ::
            (wwwDecryptImages mkObject rest ((u, mkObject u) :: cache)).1,
          (wwwDecryptImages mkObject rest ((u, mkObject u) :: cache)).2.1,
          u :: (wwwDecryptImages mkObject rest ((u, mkObject u) :: cache)).2.2)

/-- Loader state with a single element pending locator `a`. -/
def oneImageState : LoaderState :=
  { images := [{ id := 0, dataSrc := some "a", src := none }], fetches := [] }

/-- Loader state with two elements both pending the same locator `a`. -/
def twoImageState : LoaderState :=
  { images := [{ id := 0, dataSrc := some "a", src := none },
               { id := 1, dataSrc := some "a", src := none }], fetches := [] }

/-- An intersecting entry for element `n`. -/
def hotEntry (n : Nat) : Entry := { target := n, isIntersecting := true }

/-- Statement of claim C3 as written: from a fresh state, N elements all
pending one identical locator cause at most one network fetch in an
observer callback batch. -/
def singleFetchClaim : Prop :=
  ∀ (st : LoaderState) (batch : List Entry) (u : String),
    st.fetches = [] → (∀ img ∈ st.images, img.dataSrc = some u) →
    (observerBatch st batch).fetches.length ≤ 1

/-- Statement of claim C4 as written: marker removal is synchronous
before the fetch, so delivering the same intersecting entry twice adds at
most one fetch. -/
def markerSynchronousClaim : Prop :=
  ∀ (st : LoaderState) (e : Entry),
    (observerBatch (observerBatch st [e]) [e]).fetches.length ≤ st.fetches.length + 1

/-- Type of a keyed MAC: key and message bytes to MAC bytes.  The map
layer uses HMAC-SHA-256 via `crypto.subtle.sign`, a platform primitive;
the model quantifies over it. -/
abbrev Hmac := List Byte → List Byte → List Byte

/-- RFC 4648 base32 alphabet. -/
def base32Alphabet : List Char := "ABCDEFGHIJKLMNOPQRSTUVWXYZ234567".data

/-- Character for one 5-bit group. -/
def base32Char (n : Nat) : Char := base32Alphabet.getD n '?'

/-- Value of five big-endian bits. -/
def quintValue (a b c d e : Bool) : Nat :=
  16 * cond a 1 0 + 8 * cond b 1 0 + 4 * cond c 1 0 + 2 * cond d 1 0 + cond e 1 0

/-- Split a bit stream into 5-bit groups, zero-padding the final group,
as RFC 4648 base32 does. -/
def bitsToQuintets : List Bool → List Nat
  | b0 :: b1 :: b2 :: b3 :: b4 :: rest => quintValue b0 b1 b2 b3 b4 :: bitsToQuintets rest
  | [] => []
  | [b0] => [quintValue b0 false false false false]
  | [b0, b1] => [quintValue b0 b1 false false false]
  | [b0, b1, b2] => [quintValue b0 b1 b2 false false]
  | [b0, b1, b2, b3] => [quintValue b0 b1 b2 b3 false]

/-- RFC 4648 base32 encoding without padding characters, as the
base32-encode package produces with padding disabled. -/
def base32Encode (bytes : List Byte) : String :=
  ⟨(bitsToQuintets (bytes.flatMap (natToBits 8))).map base32Char⟩

/-- Coordinate string for a tile, as built by the template literal in
`createTile`. -/
def pointString (zoom x y : Int) : String :=
  jsNumToString zoom ++ "_" ++ jsNumToString x ++ "_" ++ jsNumToString y

/-- Byte sequence the map layer signs: the per-character char codes of
the point string, as `Int8Array.from(point, c => c.charCodeAt(0))`
produces for ASCII data. -/
def charCodeBytes (s : String) : List Byte := s.data.map Char.toNat

/-- RFC 3629 UTF-8 encoding of one character. -/
def utf8EncodeCharNat (c : Char) : List Byte :=
  if c.toNat < 128 then [c.toNat]
  else if c.toNat < 2048 then [192 + c.toNat / 64, 128 + c.toNat % 64]
  else if c.toNat < 65536 then
    [224 + c.toNat / 4096, 128 + c.toNat / 64 % 64, 128 + c.toNat % 64]
  else [240 + c.toNat / 262144, 128 + c.toNat / 4096 % 64, 128 + c.toNat / 64 % 64,
    128 + c.toNat % 64]

/-- UTF-8 bytes of a string. -/
def utf8Bytes (s : String) : List Byte := s.data.flatMap utf8EncodeCharNat

/-- Locator the map layer fetches for a tile (`createTile`): `tiles/`
followed by the lower-cased unpadded base32 encoding of the MAC of the
point string under the derived signing key. -/
def deriveLocator (hmac : Hmac) (key : List Byte) (zoom x y : Int) : String :=
  "tiles/" ++ jsToLowerCase (base32Encode (hmac key (charCodeBytes (pointString zoom x y))))

/-- Network fetches issued by one `createTile` call: the locator fetch is
attempted only inside the membership test against the declared tile
list. -/
def createTileFetches (hmac : Hmac) (key : List Byte) (tiles : List String)
    (zoom x y : Int) : List String :=
  if tiles.contains (pointString zoom x y) then [deriveLocator hmac key zoom x y] else []

/-- Modelled from the spec: stand-in keyed MAC with 32-byte output, used
only to instantiate theorems quantified over the platform HMAC. -/
def specHMAC : Hmac := fun key msg =>
  (List.range 32).map (fun i => (key.sum * 31 + msg.sum * 17 + i * 7) % 256)

/-! Theorems: claim statements, counterexamples, witnesses and helper lemmas. -/

/-! ### Helper lemmas about the base64 decoder and key validation -/

theorem isValidKey_iff (v : Variant) (k : String) :
    isValidKey v k = true ↔
      (atob (normalizeKey v k)).map List.length = some (expectedKeyLength v) := by
  unfold isValidKey
  cases h : atob (normalizeKey v k) with
  | none => simp
  | some bs => simp [beq_iff_eq]

theorem mem_take_append_drop {c : Char} {l : List Char} (n : Nat) (h : c ∈ l) :
    c ∈ l.take n ∨ c ∈ l.drop n := by
  rw [← List.mem_append, List.take_append_drop]
  exact h

theorem mem_stripBase64Padding {c : Char} {cs : List Char} (hc : c ∈ cs) (hne : c ≠ '=') :
    c ∈ stripBase64Padding cs := by
  have hrev : c ∈ cs.reverse := List.mem_reverse.mpr hc
  unfold stripBase64Padding
  split
  · split
    case _ h2 =>
      refine List.mem_reverse.mpr ?_
      rcases mem_take_append_drop 2 hrev with h | h
      · rw [h2] at h
        rcases List.mem_cons.mp h with rfl | h
        · exact absurd rfl hne
        · rcases List.mem_cons.mp h with rfl | h
          · exact absurd rfl hne
          · cases h
      · exact h
    case _ =>
      split
      case _ h1 =>
        refine List.mem_reverse.mpr ?_
        rcases mem_take_append_drop 1 hrev with h | h
        · rw [h1] at h
          rcases List.mem_cons.mp h with rfl | h
          · exact absurd rfl hne
          · cases h
        · exact h
      case _ => exact hc
  · exact hc

theorem decodeSextets_eq_none {c : Char} {cs : List Char} (hc : c ∈ cs)
    (h : base64Index c = none) : decodeSextets cs = none := by
  induction cs with
  | nil => cases hc
  | cons d ds ih =>
    rcases List.mem_cons.mp hc with rfl | hm
    · cases hd : decodeSextets ds <;> simp [decodeSextets, h, hd]
    · cases hd : base64Index d <;> simp [decodeSextets, hd, ih hm]

theorem atob_eq_none_of_invalid_char {s : String} {c : Char} (hc : c ∈ s.data)
    (hw : isB64Whitespace c = false) (hi : base64Index c = none) (hne : c ≠ '=') :
    atob s = none := by
  have h1 : c ∈ s.data.filter (fun c => ! isB64Whitespace c) :=
    List.mem_filter.mpr ⟨hc, by simp [hw]⟩
  have h2 : c ∈ stripBase64Padding (s.data.filter (fun c => ! isB64Whitespace c)) :=
    mem_stripBase64Padding h1 hne
  unfold atob atobChars
  split
  · rfl
  · rw [decodeSextets_eq_none h2 hi]

theorem normalizeKey_urlSafe (s : String) :
    normalizeKey .assets (jsReplaceAllChar '/' '_' (jsReplaceAllChar '+' '-' s)) =
      normalizeKey .assets s := by
  apply congrArg String.mk
  simp only [normalizeKey, jsReplaceAllChar, List.map_map]
  apply List.map_congr_left
  intro c _
  by_cases h1 : c = '+'
  · subst h1; rfl
  · by_cases h2 : c = '/'
    · subst h2; rfl
    · by_cases h3 : c = '-'
      · subst h3; rfl
      · by_cases h4 : c = '_'
        · subst h4; rfl
        · simp [Function.comp, h1, h2, h3, h4]

/-- Claim C1: key capture succeeds exactly on a non-empty fragment whose
deployment-normalised base64 decoding has exactly the deployment's
expected byte length (16 bytes for the www build, 32 for the assets
build); on success the fragment string is stored as the session key, and
on failure the session storage is left entirely unchanged. -/
theorem captureKeyFromLocation_spec (v : Variant) (loc : PageLocation) (st : SessionStorage) :
    ((captureKeyFromLocation v loc st).2 = true ↔
      jsSubstrFrom1 loc.hash ≠ "" ∧
        (atob (normalizeKey v (jsSubstrFrom1 loc.hash))).map List.length =
          some (expectedKeyLength v)) ∧
    ((captureKeyFromLocation v loc st).2 = true →
      (captureKeyFromLocation v loc st).1 =
        { st with key := some (jsSubstrFrom1 loc.hash) }) ∧
    ((captureKeyFromLocation v loc st).2 = false →
      (captureKeyFromLocation v loc st).1 = st) ∧
    expectedKeyLength .www = 16 ∧ expectedKeyLength .assets = 32 := by
  refine ⟨?_, ?_, ?_, rfl, rfl⟩
  · unfold captureKeyFromLocation
    split
    case _ h =>
      constructor
      · intro _
        exact ⟨h.1, (isValidKey_iff v _).mp h.2⟩
      · intro _
        rfl
    case _ h =>
      simp only [Bool.false_eq_true, false_iff]
      intro hcon
      exact h ⟨hcon.1, (isValidKey_iff v _).mpr hcon.2⟩
  · unfold captureKeyFromLocation
    split
    · intro _
      rfl
    · simp
  · unfold captureKeyFromLocation
    split
    · simp
    · intro _
      rfl

/-- Concrete instance of C1: a fragment holding a 16-zero-byte key is
captured by the www build and stored in session storage. -/
theorem captureKeyFromLocation_spec_witness :
    (captureKeyFromLocation .www
        { hash := "#AAAAAAAAAAAAAAAAAAAAAA==", pathname := "/blog/post/" }
        { key := none, dir := none }).1 =
      { key := some "AAAAAAAAAAAAAAAAAAAAAA==", dir := none } := by
  have h := (captureKeyFromLocation_spec .www
    { hash := "#AAAAAAAAAAAAAAAAAAAAAA==", pathname := "/blog/post/" }
    { key := none, dir := none }).2.1 (by decide)
  simpa using h

/-- Claim C9: the assets (32-byte) build normalises the URL-safe base64
alphabet before validation, so translating `+` to `-` and `/` to `_` in a
candidate key never changes its verdict, while the www (16-byte) build
accepts only the standard alphabet: any candidate containing `-` or `_`
is rejected. -/
theorem isValidKey_alphabets (key : String) :
    isValidKey .assets (jsReplaceAllChar '/' '_' (jsReplaceAllChar '+' '-' key)) =
      isValidKey .assets key ∧
    (∀ c ∈ key.data, (c = '-' ∨ c = '_') → isValidKey .www key = false) := by
  constructor
  · unfold isValidKey
    rw [normalizeKey_urlSafe]
  · intro c hc hor
    have hnone : atob (normalizeKey .www key) = none := by
      show atob key = none
      rcases hor with rfl | rfl
      · exact atob_eq_none_of_invalid_char hc (by decide) (by decide) (by decide)
      · exact atob_eq_none_of_invalid_char hc (by decide) (by decide) (by decide)
    unfold isValidKey
    rw [hnone]

/-- Concrete instance of C9: a candidate containing `-` is rejected by the
www build, and URL-safe translation does not change the assets verdict on
an all-`A` 43-character key. -/
theorem isValidKey_alphabets_witness :
    isValidKey .www "AA-AAAAAAAAAAAAAAAAAAA==" = false ∧
    isValidKey .assets
        (jsReplaceAllChar '/' '_' (jsReplaceAllChar '+' '-'
          "AAAAAAAAAAAAAAAAAAAAAAAAAAAAAAAAAAAAAAAAAAA=")) =
      isValidKey .assets "AAAAAAAAAAAAAAAAAAAAAAAAAAAAAAAAAAAAAAAAAAA=" :=
  ⟨(isValidKey_alphabets "AA-AAAAAAAAAAAAAAAAAAA==").2 '-' (by decide) (Or.inl rfl),
   (isValidKey_alphabets "AAAAAAAAAAAAAAAAAAAAAAAAAAAAAAAAAAAAAAAAAAA=").1⟩

/-- Claim C10: every www page load writes the last non-empty path
component (as coerced by JS) into session storage under `dir`, and this
write happens whether or not key capture succeeded: the stored `dir` is a
function of the pathname alone, while the stored key is exactly what the
key-capture step produced. -/
theorem wwwPageLoad_dir (loc : PageLocation) (st : SessionStorage) :
    (wwwPageLoad loc st).dir = some (dirValue loc.pathname) ∧
    (wwwPageLoad loc st).key = (captureKeyFromLocation .www loc st).1.key := by
  exact ⟨rfl, rfl⟩

theorem specAEAD_respectsTagLength : RespectsTagLength specAEAD := by
  intro k iv ct h
  unfold specAEAD
  rw [if_pos h]

/-- Claim C2: decrypt passes exactly the first 12 input bytes to the AEAD
as the nonce and the remaining bytes as the ciphertext-with-tag; it
yields a plaintext exactly when the AEAD authenticates, and for any AEAD
with the 16-byte tag of AES-GCM it fails on every input shorter than 12
bytes. -/
theorem decrypt_spec (aead : AeadOpen) (key data : List Byte)
    (htag : RespectsTagLength aead) :
    decrypt aead key data = aead key (data.take 12) (data.drop 12) ∧
    (∀ pt, decrypt aead key data = some pt ↔
      aead key (data.take 12) (data.drop 12) = some pt) ∧
    (data.length < 12 → decrypt aead key data = none) := by
  refine ⟨rfl, fun pt => Iff.rfl, fun h => ?_⟩
  have hlen : (data.drop 12).length < 16 := by
    rw [List.length_drop]
    omega
  exact htag key _ _ hlen

/-- Concrete instance of C2: a 3-byte input (shorter than the nonce)
fails to decrypt under the toy cipher. -/
theorem decrypt_spec_witness :
    decrypt specAEAD (List.replicate 16 0) [1, 2, 3] = none :=
  (decrypt_spec specAEAD (List.replicate 16 0) [1, 2, 3]
    specAEAD_respectsTagLength).2.2 (by decide)

/-- Claim C7 counterexample: the fetcher never checks `response.ok`, so a
404 response is not surfaced as a network error — its body flows into
decryption and fails there as a decryption error. -/
theorem fetcherStatusClaim_false : ¬ fetcherStatusClaim := by
  intro h
  have h1 := h net404 specAEAD [] "content"
    { status := 404, body := [0, 1, 2], contentType := none } rfl (by decide)
  have h2 : fetchAndDecrypt net404 specAEAD [] "content" = .error .decryptionError := by rfl
  rw [h2] at h1
  injection h1 with h3
  exact FetchError.noConfusion h3

/-- Claim C7 amended: a rejected fetch (unreachable host) and a
decryption failure are distinct error kinds and each propagates with no
result produced; a response delivered with any HTTP status, success or
not, is never classified as a network failure — its body is handed to
decryption, so a non-success status surfaces as a decryption error
whenever its body does not authenticate. -/
theorem fetchAndDecrypt_spec (net : Network) (aead : AeadOpen) (key : List Byte)
    (url : String) :
    (net url = none → fetchAndDecrypt net aead key url = .error .networkError) ∧
    (∀ r, net url = some r → decrypt aead key r.body = none →
      fetchAndDecrypt net aead key url = .error .decryptionError) ∧
    (∀ r, net url = some r → ∀ pt, decrypt aead key r.body = some pt →
      fetchAndDecrypt net aead key url = .ok pt) ∧
    FetchError.networkError ≠ FetchError.decryptionError := by
  refine ⟨?_, ?_, ?_, by decide⟩
  · intro h
    unfold fetchAndDecrypt fetchData
    rw [h]
  · intro r hr hdec
    unfold fetchAndDecrypt fetchData
    rw [hr]
    dsimp only
    rw [hdec]
  · intro r hr pt hdec
    unfold fetchAndDecrypt fetchData
    rw [hr]
    dsimp only
    rw [hdec]

/-- Concrete instance of the amended C7: the 404 host's body fails
decryption and the pipeline reports a decryption error. -/
theorem fetchAndDecrypt_spec_witness :
    fetchAndDecrypt net404 specAEAD [] "content" = .error .decryptionError :=
  (fetchAndDecrypt_spec net404 specAEAD [] "content").2.1
    { status := 404, body := [0, 1, 2], contentType := none } rfl (by decide)

/-- Claim C8 counterexample: in the www build the failure handler is
`console.log(reason)`, so a root decryption failure puts the rejection
reason in the console. -/
theorem failClosedClaim_false : ¬ failClosedClaim := by
  intro h
  have h2 := h .www net404 specAEAD []
    (fun pt hpt => by
      have hval : fetchAndDecrypt net404 specAEAD [] "content" = .error .decryptionError := by
        rfl
      rw [hval] at hpt
      exact Except.noConfusion hpt)
  have h3 : (loadRootContent .www net404 specAEAD []).consoleLogs = ["OperationError"] := by
    decide
  rw [h3] at h2
  exact List.noConfusion h2.2

/-- Claim C8 amended: on root fetch or decryption failure neither variant
inserts content or unlocks the page, and the assets build surfaces
nothing at all; the www build, however, logs the rejection reason to the
console. -/
theorem loadRootContent_failure (v : Variant) (net : Network) (aead : AeadOpen)
    (key : List Byte) (e : FetchError)
    (hfail : fetchAndDecrypt net aead key "content" = .error e) :
    (loadRootContent v net aead key).domInserts = [] ∧
    (loadRootContent v net aead key).unlockedClass = false ∧
    (v = .assets → (loadRootContent v net aead key).consoleLogs = []) ∧
    (v = .www → (loadRootContent v net aead key).consoleLogs = [errorMessage e]) := by
  unfold loadRootContent
  rw [hfail]
  cases v <;> simp [handleContentLoad]

/-- Concrete instance of the amended C8: the www build logs the
decryption failure while inserting nothing. -/
theorem loadRootContent_failure_witness :
    (loadRootContent .www net404 specAEAD []).domInserts = [] ∧
    (loadRootContent .www net404 specAEAD []).consoleLogs =
      [errorMessage .decryptionError] := by
  have h := loadRootContent_failure .www net404 specAEAD [] .decryptionError (by rfl)
  exact ⟨h.1, h.2.2.2 rfl⟩

/-! ### Helper lemmas about the lazy loader -/

theorem fillImage_dataSrc_ne (u obj : String) (img : ImageElt) :
    (fillImage u obj img).dataSrc ≠ some u := by
  unfold fillImage
  split
  · simp
  case _ h => exact h

theorem observerStep_fixed (st : LoaderState) (e : Entry)
    (h : ∀ img ∈ st.images, img.dataSrc = none) : observerStep st e = st := by
  unfold observerStep
  split
  · rfl
  case _ img hfind =>
    have hmem := List.mem_of_find?_eq_some hfind
    rw [h img hmem]
    split <;> rfl

theorem observerBatch_fixed (st : LoaderState) (batch : List Entry)
    (h : ∀ img ∈ st.images, img.dataSrc = none) : observerBatch st batch = st := by
  induction batch with
  | nil => rfl
  | cons e rest ih =>
    unfold observerBatch at ih ⊢
    rw [List.foldl_cons, observerStep_fixed st e h]
    exact ih

theorem wwwDecryptImages_cached (mkObject : String → String) (u obj : String)
    (imgs : List ImageElt) (cache : List (String × String))
    (hcache : cache.lookup u = some obj)
    (hall : ∀ img ∈ imgs, img.dataSrc = none ∨ img.dataSrc = some u) :
    wwwDecryptImages mkObject imgs cache = (imgs.map (fillImage u obj), cache, []) := by
  induction imgs with
  | nil => rfl
  | cons img rest ih =>
    have hrest : ∀ i ∈ rest, i.dataSrc = none ∨ i.dataSrc = some u :=
      fun i hi => hall i (List.mem_cons_of_mem _ hi)
    have ihr := ih hrest
    rcases hall img (List.mem_cons_self _ _) with h | h
    · unfold wwwDecryptImages
      rw [h]
      dsimp only
      rw [ihr]
      simp [fillImage, h]
    · unfold wwwDecryptImages
      rw [h]
      dsimp only
      rw [hcache]
      dsimp only
      rw [ihr]
      simp [fillImage, h]

theorem wwwDecryptImages_fresh (mkObject : String → String) (u : String)
    (imgs : List ImageElt) (cache : List (String × String))
    (hcache : cache.lookup u = none)
    (hall : ∀ img ∈ imgs, img.dataSrc = none ∨ img.dataSrc = some u) :
    (wwwDecryptImages mkObject imgs cache).2.2 =
      (if imgs.any (fun img => img.dataSrc == some u) then [u] else []) ∧
    (wwwDecryptImages mkObject imgs cache).1 =
      imgs.map (fillImage u (mkObject u)) := by
  induction imgs generalizing cache with
  | nil => exact ⟨rfl, rfl⟩
  | cons img rest ih =>
    have hrest : ∀ i ∈ rest, i.dataSrc = none ∨ i.dataSrc = some u :=
      fun i hi => hall i (List.mem_cons_of_mem _ hi)
    rcases hall img (List.mem_cons_self _ _) with h | h
    · obtain ⟨ih1, ih2⟩ := ih cache hcache hrest
      constructor
      · unfold wwwDecryptImages
        rw [h]
        dsimp only
        rw [ih1, List.any_cons, h]
        rfl
      · unfold wwwDecryptImages
        rw [h]
        dsimp only
        rw [ih2, List.map_cons]
        have hfill : fillImage u (mkObject u) img = img := by
          unfold fillImage
          rw [if_neg (by rw [h]; exact fun hc => Option.noConfusion hc)]
        rw [hfill]
    · have hcache2 : ((u, mkObject u) :: cache).lookup u = some (mkObject u) := by
        simp [List.lookup]
      have hc := wwwDecryptImages_cached mkObject u (mkObject u) rest
        ((u, mkObject u) :: cache) hcache2 hrest
      constructor
      · unfold wwwDecryptImages
        rw [h]
        dsimp only
        rw [hcache]
        dsimp only
        rw [hc, List.any_cons, h]
        simp
      · unfold wwwDecryptImages
        rw [h]
        dsimp only
        rw [hcache]
        dsimp only
        rw [hc, List.map_cons]
        have hfill : fillImage u (mkObject u) img =
            { img with dataSrc := none, src := some (mkObject u) } := by
          unfold fillImage
          rw [if_pos h]
        rw [hfill]

/-- Claim C3 counterexample: two elements pending the same locator that
intersect in the same observer batch each trigger `decryptImage`, so two
fetches for one locator are issued. -/
theorem singleFetchClaim_false : ¬ singleFetchClaim := by
  intro h
  have h1 := h twoImageState [hotEntry 0, hotEntry 1] "a" rfl (by decide)
  have h2 : (observerBatch twoImageState [hotEntry 0, hotEntry 1]).fetches.length = 2 := by
    rfl
  rw [h2] at h1
  omega

/-- Claim C3 amended: deduplication happens at completion, not at fetch
time.  When the fetch of locator `u` completes, every element marked with
`u` receives the object URL and loses its marker, after which (if no
other locator is pending) observer batches issue no further fetches; and
in the sequential www loader, which removes markers synchronously and
keeps a cache, N elements sharing one locator produce exactly one fetch
and all receive the decrypted result.  Before completion, however, each
still-marked intersecting element issues its own fetch (see the
counterexample). -/
theorem lazyLoaderDedup (st : LoaderState) (u obj : String)
    (mkObject : String → String) (imgs : List ImageElt)
    (hall : ∀ img ∈ st.images, img.dataSrc = none ∨ img.dataSrc = some u)
    (hall2 : ∀ img ∈ imgs, img.dataSrc = none ∨ img.dataSrc = some u) :
    (∀ img ∈ st.images, img.dataSrc = some u →
      { img with dataSrc := none, src := some obj } ∈ (completeFetch st u obj).images) ∧
    (∀ batch, observerBatch (completeFetch st u obj) batch = completeFetch st u obj) ∧
    ((wwwDecryptImages mkObject imgs []).2.2 =
      if imgs.any (fun img => img.dataSrc == some u) then [u] else []) ∧
    ((wwwDecryptImages mkObject imgs []).1 = imgs.map (fillImage u (mkObject u))) := by
  refine ⟨?_, ?_, (wwwDecryptImages_fresh mkObject u imgs [] rfl hall2).1,
    (wwwDecryptImages_fresh mkObject u imgs [] rfl hall2).2⟩
  · intro img hmem hsrc
    have : fillImage u obj img = { img with dataSrc := none, src := some obj } := by
      unfold fillImage
      rw [if_pos hsrc]
    rw [← this]
    exact List.mem_map_of_mem _ hmem
  · intro batch
    refine observerBatch_fixed _ batch ?_
    intro img hmem
    rcases List.mem_map.mp hmem with ⟨img0, hmem0, rfl⟩
    rcases hall img0 hmem0 with h | h
    · unfold fillImage
      rw [if_neg (by rw [h]; exact fun hc => Option.noConfusion hc)]
      exact h
    · unfold fillImage
      rw [if_pos h]

/-- Concrete instance of the amended C3: completing the fetch of `a` in
the two-element state marks both elements loaded with the object URL, a
later batch issues nothing, and the www sequential loader fetches `a`
exactly once for the same two elements. -/
theorem lazyLoaderDedup_witness :
    observerBatch (completeFetch twoImageState "a" "blob:1") [hotEntry 0, hotEntry 1] =
      completeFetch twoImageState "a" "blob:1" ∧
    (wwwDecryptImages (fun _ => "blob:1") twoImageState.images []).2.2 = ["a"] := by
  have h := lazyLoaderDedup twoImageState "a" "blob:1" (fun _ => "blob:1")
    twoImageState.images (by decide) (by decide)
  exact ⟨h.2.1 [hotEntry 0, hotEntry 1], by rw [h.2.2.1]; rfl⟩

/-- Claim C4 counterexample: the marker survives until the asynchronous
continuation runs, so re-triggering visibility on an element whose fetch
is still in flight issues a second fetch. -/
theorem markerSynchronousClaim_false : ¬ markerSynchronousClaim := by
  intro h
  have h1 := h oneImageState (hotEntry 0)
  have h2 : (observerBatch (observerBatch oneImageState [hotEntry 0])
      [hotEntry 0]).fetches.length = 2 := by rfl
  have h3 : oneImageState.fetches.length = 0 := rfl
  rw [h2, h3] at h1
  omega

/-- Claim C4 amended: the pending-declaration marker is removed in the
promise continuation after fetch and decryption complete, not
synchronously before the fetch.  Once it is gone (element Loaded),
re-triggering visibility issues no fetch; while the element is still
marked (fetch in flight), an intersecting re-trigger issues another
fetch. -/
theorem markerRemovalAtCompletion (st : LoaderState) (u obj : String) (e : Entry)
    (img : ImageElt)
    (hfind : st.images.find? (fun i => i.id == e.target) = some img) :
    (∀ i ∈ (completeFetch st u obj).images, i.dataSrc ≠ some u) ∧
    (img.dataSrc = none → observerStep st e = st) ∧
    (img.dataSrc = some u → e.isIntersecting = true →
      (observerStep st e).fetches = st.fetches ++ [u]) := by
  refine ⟨?_, ?_, ?_⟩
  · intro i hmem
    rcases List.mem_map.mp hmem with ⟨i0, _, rfl⟩
    exact fillImage_dataSrc_ne u obj i0
  · intro hnone
    unfold observerStep
    rw [hfind]
    dsimp only
    rw [hnone]
    split <;> rfl
  · intro hsome hint
    unfold observerStep
    rw [hfind]
    dsimp only
    rw [hint, hsome]
    rfl

/-- Concrete instance of the amended C4: after completion the single
element is unmarked, while a re-trigger before completion appends a
second fetch. -/
theorem markerRemovalAtCompletion_witness :
    (observerStep oneImageState (hotEntry 0)).fetches = oneImageState.fetches ++ ["a"] :=
  (markerRemovalAtCompletion oneImageState "a" "blob:1" (hotEntry 0)
    { id := 0, dataSrc := some "a", src := none } (by decide)).2.2 rfl rfl

/-! ### ASCII and UTF-8 bridge lemmas -/

theorem digitChar_ne_case {n k : Nat} (h : 16 ≤ n) (hk : k < 16) : n ≠ k := by omega

theorem digitChar_ascii (n : Nat) : (Nat.digitChar n).toNat < 128 := by
  by_cases h : n < 16
  · interval_cases n <;> decide
  · have hge : 16 ≤ n := by omega
    have hstar : Nat.digitChar n = '*' := by
      unfold Nat.digitChar
      repeat rw [if_neg (digitChar_ne_case hge (by decide))]
    rw [hstar]
    decide

theorem toDigitsCore_ascii (b : Nat) (fuel : Nat) :
    ∀ (n : Nat) (ds : List Char), (∀ c ∈ ds, c.toNat < 128) →
      ∀ c ∈ Nat.toDigitsCore b fuel n ds, c.toNat < 128 := by
  induction fuel with
  | zero =>
    intro n ds h c hc
    exact h c hc
  | succ fuel ih =>
    intro n ds h c hc
    unfold Nat.toDigitsCore at hc
    dsimp only at hc
    split at hc
    · rcases List.mem_cons.mp hc with rfl | hm
      · exact digitChar_ascii _
      · exact h c hm
    · refine ih (n / b) (Nat.digitChar (n % b) :: ds) ?_ c hc
      intro d hd
      rcases List.mem_cons.mp hd with rfl | hm
      · exact digitChar_ascii _
      · exact h d hm

theorem natRepr_ascii (n : Nat) : ∀ c ∈ (Nat.repr n).data, c.toNat < 128 := by
  intro c hc
  have hdata : (Nat.repr n).data = Nat.toDigitsCore 10 (n + 1) n [] := rfl
  rw [hdata] at hc
  exact toDigitsCore_ascii 10 (n + 1) n [] (by intro d hd; cases hd) c hc

theorem jsNumToString_ascii (i : Int) : ∀ c ∈ (jsNumToString i).data, c.toNat < 128 := by
  cases i with
  | ofNat m => exact natRepr_ascii m
  | negSucc m =>
    intro c hc
    have hdata : (jsNumToString (Int.negSucc m)).data = '-' :: (Nat.repr (m + 1)).data := rfl
    rw [hdata] at hc
    rcases List.mem_cons.mp hc with rfl | hm
    · decide
    · exact natRepr_ascii _ c hm

theorem pointString_ascii (zoom x y : Int) :
    ∀ c ∈ (pointString zoom x y).data, c.toNat < 128 := by
  intro c hc
  unfold pointString at hc
  simp only [String.data_append, List.mem_append] at hc
  rcases hc with ((((hc | hc) | hc) | hc) | hc)
  · exact jsNumToString_ascii zoom c hc
  · rcases List.mem_singleton.mp hc with rfl
    decide
  · exact jsNumToString_ascii x c hc
  · rcases List.mem_singleton.mp hc with rfl
    decide
  · exact jsNumToString_ascii y c hc

theorem utf8_flatMap_ascii (l : List Char) (h : ∀ c ∈ l, c.toNat < 128) :
    l.flatMap utf8EncodeCharNat = l.map Char.toNat := by
  induction l with
  | nil => rfl
  | cons c cs ih =>
    rw [List.flatMap_cons, List.map_cons]
    have h1 : utf8EncodeCharNat c = [c.toNat] := by
      unfold utf8EncodeCharNat
      rw [if_pos (h c (List.mem_cons_self _ _))]
    rw [h1, ih (fun d hd => h d (List.mem_cons_of_mem _ hd))]
    rfl

theorem utf8Bytes_eq_charCodeBytes (s : String) (h : ∀ c ∈ s.data, c.toNat < 128) :
    utf8Bytes s = charCodeBytes s :=
  utf8_flatMap_ascii s.data h

/-- Claim C5: for every MAC primitive, derived key and coordinates, the
tile locator equals `tiles/` followed by the lower-cased padding-free
RFC 4648 base32 encoding of the MAC, under the derived key, of the UTF-8
bytes of the `zoom_x_y` string (the char-code bytes the source feeds the
MAC coincide with UTF-8 because the point string is ASCII), and any
locator `createTile` fetches is exactly this derivation — which is a pure
function of the key and coordinates, hence deterministic. -/
theorem deriveLocator_spec (hmac : Hmac) (key : List Byte) (tiles : List String)
    (zoom x y : Int) :
    deriveLocator hmac key zoom x y =
      "tiles/" ++ jsToLowerCase (base32Encode (hmac key
        (utf8Bytes (pointString zoom x y)))) ∧
    (∀ loc ∈ createTileFetches hmac key tiles zoom x y,
      loc = deriveLocator hmac key zoom x y) := by
  constructor
  · rw [utf8Bytes_eq_charCodeBytes _ (pointString_ascii zoom x y)]
    rfl
  · intro loc hloc
    unfold createTileFetches at hloc
    split at hloc
    · exact (List.mem_singleton.mp hloc)
    · cases hloc

/-- Concrete instance of C5: the locator for tile (5, 3, 7) under the toy
MAC is the stated derivation from the UTF-8 bytes of `5_3_7`. -/
theorem deriveLocator_spec_witness :
    deriveLocator specHMAC [3, 1, 4] 5 3 7 =
      "tiles/" ++ jsToLowerCase (base32Encode (specHMAC [3, 1, 4]
        (utf8Bytes (pointString 5 3 7)))) :=
  (deriveLocator_spec specHMAC [3, 1, 4] [] 5 3 7).1

/-- Claim C6: a `createTile` step attempts a locator fetch only when the
`zoom_x_y` string is listed in the decrypted tile index; for an
undeclared coordinate tuple no fetch is issued at all. -/
theorem createTileFetches_declared (hmac : Hmac) (key : List Byte) (tiles : List String)
    (zoom x y : Int) :
    (∀ loc ∈ createTileFetches hmac key tiles zoom x y, pointString zoom x y ∈ tiles) ∧
    (pointString zoom x y ∉ tiles → createTileFetches hmac key tiles zoom x y = []) := by
  constructor
  · intro loc hloc
    unfold createTileFetches at hloc
    split at hloc
    case _ h => exact List.elem_iff.mp h
    case _ => cases hloc
  · intro hnot
    unfold createTileFetches
    rw [if_neg (fun h => hnot (List.elem_iff.mp h))]

/-- Concrete instance of C6, the scenario from the spec: with only tile
`5_3_7` declared, requesting the undeclared tile (5, 3, 8) issues no
fetch. -/
theorem createTileFetches_declared_witness :
    createTileFetches specHMAC [3, 1, 4] ["5_3_7"] 5 3 8 = [] :=
  (createTileFetches_declared specHMAC [3, 1, 4] ["5_3_7"] 5 3 8).2 (by decide)

example : base32Encode [102] = "MY" := by decide
example : base32Encode [102, 111, 111, 98, 97, 114] = "MZXW6YTBOI" := by decide
example : jsToLowerCase "MZXW6YTBOI2345" = "mzxw6ytboi2345" := by decide
example : pointString 5 3 7 = "5_3_7" := by decide
example : pointString 12 (-3) 7 = "12_-3_7" := by decide
example : atob "TWFu" = some [77, 97, 110] := by decide

example : atob "AAAAAAAAAAAAAAAAAAAAAA==" = some (List.replicate 16 0) := by decide

example : atob "TWFuQQ" = some [77, 97, 110, 65] := by decide

example : atob "TWF%" = none := by decide

example : isValidKey .www "AAAAAAAAAAAAAAAAAAAAAA==" = true := by decide

example : isValidKey .assets "AAAAAAAAAAAAAAAAAAAAAA==" = false := by decide

example :
    isValidKey .assets "AAAAAAAAAAAAAAAAAAAAAAAAAAAAAAAAAAAAAAAAAAA=" = true := by decide

example : getLastPathComponent "/blog/post/" = some "post" := by decide

example : getLastPathComponent "/" = none := by decide

end Secrets

